import Mathlib

/-!
# Verification of the Hieren-AI streaming relay and session store

Shallow embedding of the repository's core routines:

* `parseGroqStream` (src/lib/api/streaming.ts): decodes the provider's
  Server-Sent-Events stream into text deltas and tool-call fragments.
* `createChatStream` (same file): wraps a generator into the caller-facing
  event stream, appending the `data: [DONE]` terminal marker or an error event.
* `retryWithBackoff` (same file): bounded retry with provider-supplied delay.
* The chat route generators (src/app/api/chat-rag/route.ts and the plain
  chat route): message-history assembly and the tool-execution loop.
* The session/message store routes (src/app/api/sessions/...): listing,
  transfer, cascade delete, message queries, over a relational-state model.

JSON-encoded records are modelled at the branching granularity the code
distinguishes (blank line / non-data line / `[DONE]` sentinel / malformed
payload / parsed chunk); the JSON text layer is an injective encoding the
code only ever inspects through these cases.
-/

namespace HierenAI

/-- One tool-call fragment as delivered by a streamed chunk's
`delta.tool_calls` entry: `{ id, function: { name, arguments } }`. -/
structure ToolCallFragment where
  id : String
  name : String
  arguments : String
deriving DecidableEq, Repr

/-- The fields of a parsed stream record (`GroqStreamChunk`) that
`parseGroqStream` reads: `choices[0].delta.content` and
`choices[0].delta.tool_calls`. -/
structure GroqStreamChunk where
  content : Option String
  tool_calls : Option (List ToolCallFragment)
deriving DecidableEq, Repr

/-- A complete line of the provider's event stream, classified exactly by the
branches `parseGroqStream` takes on it after `trim`:
* `blank`: empty line or the `:` keep-alive (skipped);
* `other`: a line without the `data: ` marker (skipped);
* `done`: the line `data: [DONE]` (skipped);
* `malformed`: a `data: ` line whose payload fails `JSON.parse` (logged, skipped);
* `chunk`: a `data: ` line whose payload parses to a `GroqStreamChunk`. -/
inductive SSEEvent where
  | blank : SSEEvent
  | other : String → SSEEvent
  | done : SSEEvent
  | malformed : String → SSEEvent
  | chunk : GroqStreamChunk → SSEEvent
deriving DecidableEq, Repr

/-- Whether a line is the `data: [DONE]` terminal sentinel. -/
def SSEEvent.isDone : SSEEvent → Bool
  | .done => true
  | _ => false

/-- One callback invocation made by `parseGroqStream`: either `onChunk`
with a text delta or `onToolCall` with a fragment. -/
inductive Emit where
  | text (s : String)
  | tool (f : ToolCallFragment)
deriving DecidableEq, Repr

/-- The `onChunk` invocations a parsed chunk produces:
`if (content) onChunk(content)` — JS truthiness makes the empty string
emit nothing. -/
def contentEmits (c : GroqStreamChunk) : List Emit :=
  match c.content with
  | some s => if s = "" then [] else [Emit.text s]
  | none => []

/-- The `onToolCall` invocations a parsed chunk produces:
`if (toolCalls && onToolCall) for (const call of toolCalls) onToolCall(...)`.
`withSink` records whether the caller supplied an `onToolCall` callback. -/
def toolEmits (withSink : Bool) (c : GroqStreamChunk) : List Emit :=
  match c.tool_calls with
  | some fs => if withSink then fs.map Emit.tool else []
  | none => []

/-- Processing of one complete line inside the read loop of
`parseGroqStream`: blank lines, non-`data: ` lines, the `[DONE]` sentinel
and malformed payloads are skipped; a parsed chunk emits its content delta
(if truthy) and then each of its tool-call fragments. -/
def processLine (withSink : Bool) : SSEEvent → List Emit
  | .blank => []
  | .other _ => []
  | .done => []
  | .malformed _ => []
  | .chunk c => contentEmits c ++ toolEmits withSink c

/-- Processing of the residual buffer after the reader is exhausted
("Process any remaining buffer"): only `onChunk` is invoked there —
tool-call fragments in the trailing record are dropped by the code. -/
def processTail : Option SSEEvent → List Emit
  | some (.chunk c) => contentEmits c
  | _ => []

/-- `parseGroqStream` (src/lib/api/streaming.ts:252): the callback trace over
a whole stream. `lines` are the complete (newline-terminated) lines in the
order the bytes arrive — buffering across network reads only regroups bytes
and never reorders or drops them, so the trace depends on the line sequence
alone; `tail` is the residual text after the last newline. -/
def parseGroqStream (lines : List SSEEvent) (tail : Option SSEEvent)
    (withSink : Bool) : List Emit :=
  (lines.map (processLine withSink)).flatten ++ processTail tail

/-- The text deltas of a callback trace, in invocation order. -/
def textDeltas (emits : List Emit) : List String :=
  emits.filterMap fun e =>
    match e with
    | .text s => some s
    | _ => none

/-- The tool-call fragments handed to `onToolCall`, in invocation order.
This is exactly the `toolCalls` array the chat routes accumulate with
`(toolCall) => { toolCalls.push(toolCall); }`. -/
def collectToolCalls (emits : List Emit) : List ToolCallFragment :=
  emits.filterMap fun e =>
    match e with
    | .tool f => some f
    | _ => none

/-- Spec-side view: the text delta carried by a source record (its
`delta.content` field when present and non-empty). -/
def lineTextDeltas (lines : List SSEEvent) : List String :=
  (lines.map fun e =>
    match e with
    | .chunk c =>
        match c.content with
        | some s => if s = "" then [] else [s]
        | none => []
    | _ => []).flatten

/-- Spec-side view: the deltas carried by the residual trailing record. -/
def tailTextDeltas (tail : Option SSEEvent) : List String :=
  match tail with
  | some (.chunk c) =>
      match c.content with
      | some s => if s = "" then [] else [s]
      | none => []
  | _ => []

/-- Spec-side view: the tool-call fragments carried by the source records,
in stream order. -/
def lineToolFrags (lines : List SSEEvent) : List ToolCallFragment :=
  (lines.map fun e =>
    match e with
    | .chunk c => c.tool_calls.getD []
    | _ => []).flatten

/-- The fragments of the stream that share the identifier `i`. -/
def fragsFor (i : String) (lines : List SSEEvent) : List ToolCallFragment :=
  (lineToolFrags lines).filter fun f => f.id = i

/-- Claim C1 as stated: once the stream ends, the relay holds exactly one
tool call for an identifier whose fragments arrived across the stream, its
argument payload the concatenation of all fragments for that identifier. -/
def claimC1 (lines : List SSEEvent) (tail : Option SSEEvent) (i : String) : Prop :=
  1 ≤ (fragsFor i lines).length →
    (((collectToolCalls (parseGroqStream lines tail true)).filter
        fun f => f.id = i).length = 1 ∧
      ((collectToolCalls (parseGroqStream lines tail true)).filter
        fun f => f.id = i).map ToolCallFragment.arguments =
        [String.join ((fragsFor i lines).map ToolCallFragment.arguments)])

/-- Claim C2 as stated: the deltas are emitted in source order and no delta
of a record after the first `[DONE]` sentinel is ever emitted. -/
def claimC2 (lines : List SSEEvent) (tail : Option SSEEvent) : Prop :=
  textDeltas (parseGroqStream lines tail true) =
    if lines.any SSEEvent.isDone then
      lineTextDeltas (lines.takeWhile fun e => !e.isDone)
    else
      lineTextDeltas lines ++ tailTextDeltas tail

lemma textDeltas_append (a b : List Emit) :
    textDeltas (a ++ b) = textDeltas a ++ textDeltas b := by
  simp [textDeltas]

lemma collectToolCalls_append (a b : List Emit) :
    collectToolCalls (a ++ b) = collectToolCalls a ++ collectToolCalls b := by
  simp [collectToolCalls]

lemma textDeltas_toolEmits (withSink : Bool) (c : GroqStreamChunk) :
    textDeltas (toolEmits withSink c) = [] := by
  unfold toolEmits
  cases c.tool_calls with
  | none => rfl
  | some fs =>
      cases withSink with
      | false => simp [textDeltas]
      | true =>
          simp only [if_pos]
          induction fs with
          | nil => rfl
          | cons f fs ih => simp [textDeltas]

lemma textDeltas_processLine (withSink : Bool) (e : SSEEvent) :
    textDeltas (processLine withSink e) =
      match e with
      | .chunk c =>
          match c.content with
          | some s => if s = "" then [] else [s]
          | none => []
      | _ => [] := by
  cases e with
  | chunk c =>
      show textDeltas (contentEmits c ++ toolEmits withSink c) = _
      rw [textDeltas_append, textDeltas_toolEmits, List.append_nil]
      cases hc : c.content with
      | none => simp [contentEmits, textDeltas, hc]
      | some s =>
          by_cases hs : s = "" <;> simp [contentEmits, textDeltas, hc, hs]
  | blank => simp [processLine, textDeltas]
  | other s => simp [processLine, textDeltas]
  | done => simp [processLine, textDeltas]
  | malformed s => simp [processLine, textDeltas]

lemma textDeltas_tail (tail : Option SSEEvent) :
    textDeltas (processTail tail) = tailTextDeltas tail := by
  match tail with
  | none => simp [processTail, tailTextDeltas, textDeltas]
  | some (.blank) => simp [processTail, tailTextDeltas, textDeltas]
  | some (.other s) => simp [processTail, tailTextDeltas, textDeltas]
  | some (.done) => simp [processTail, tailTextDeltas, textDeltas]
  | some (.malformed s) => simp [processTail, tailTextDeltas, textDeltas]
  | some (.chunk c) =>
      cases hc : c.content with
      | none => simp [processTail, tailTextDeltas, textDeltas, contentEmits, hc]
      | some s =>
          by_cases hs : s = "" <;>
            simp [processTail, tailTextDeltas, textDeltas, contentEmits, hc, hs]


lemma collectToolCalls_contentEmits (c : GroqStreamChunk) :
    collectToolCalls (contentEmits c) = [] := by
  unfold contentEmits
  cases c.content with
  | none => rfl
  | some s =>
      by_cases hs : s = "" <;> simp [collectToolCalls, hs]

lemma collectToolCalls_map_tool (fs : List ToolCallFragment) :
    collectToolCalls (fs.map Emit.tool) = fs := by
  induction fs with
  | nil => rfl
  | cons f fs ih => simpa [collectToolCalls] using ih

lemma collectToolCalls_toolEmits (c : GroqStreamChunk) :
    collectToolCalls (toolEmits true c) = c.tool_calls.getD [] := by
  cases htc : c.tool_calls with
  | none => simp [toolEmits, htc, collectToolCalls]
  | some fs =>
      simp only [toolEmits, htc, if_pos, Option.getD_some]
      exact collectToolCalls_map_tool fs

lemma collectToolCalls_processLine (e : SSEEvent) :
    collectToolCalls (processLine true e) =
      match e with
      | .chunk c => c.tool_calls.getD []
      | _ => [] := by
  cases e with
  | chunk c =>
      show collectToolCalls (contentEmits c ++ toolEmits true c) =
        c.tool_calls.getD []
      rw [collectToolCalls_append, collectToolCalls_contentEmits,
        List.nil_append, collectToolCalls_toolEmits]
  | blank => rfl
  | other s => rfl
  | done => rfl
  | malformed s => rfl

lemma collectToolCalls_tail (tail : Option SSEEvent) :
    collectToolCalls (processTail tail) = [] := by
  match tail with
  | none => rfl
  | some (.blank) => rfl
  | some (.other s) => rfl
  | some (.done) => rfl
  | some (.malformed s) => rfl
  | some (.chunk c) => exact collectToolCalls_contentEmits c

lemma parseGroqStream_cons (e : SSEEvent) (es : List SSEEvent)
    (tail : Option SSEEvent) (withSink : Bool) :
    parseGroqStream (e :: es) tail withSink =
      processLine withSink e ++ parseGroqStream es tail withSink := by
  simp [parseGroqStream]

/-- C2 (amended): for every event stream, `parseGroqStream` invokes the
text-delta callback with exactly the source records' deltas, in source
order — including deltas of records that appear after a `data: [DONE]`
sentinel: the code skips only the sentinel record itself (`continue`) and
keeps processing later records, so the "never after the sentinel" half of
the original claim does not hold. -/
theorem c2_deltas_in_order_full_stream (lines : List SSEEvent)
    (tail : Option SSEEvent) (withSink : Bool) :
    textDeltas (parseGroqStream lines tail withSink) =
      lineTextDeltas lines ++ tailTextDeltas tail := by
  induction lines with
  | nil =>
      show textDeltas ([] ++ processTail tail) = [] ++ tailTextDeltas tail
      rw [List.nil_append, List.nil_append, textDeltas_tail]
  | cons e es ih =>
      rw [parseGroqStream_cons, textDeltas_append, ih, textDeltas_processLine]
      have hcons : lineTextDeltas (e :: es) =
          (match e with
            | .chunk c =>
                match c.content with
                | some s => if s = "" then [] else [s]
                | none => []
            | _ => []) ++ lineTextDeltas es := by
        simp [lineTextDeltas]
      rw [hcons, List.append_assoc]

/-- C2 counterexample: on the stream `data: [DONE]` followed by a record
carrying the delta `"x"`, the parser still invokes the text callback with
`"x"`, refuting "never invokes it for a delta carried by a record that
appears after the terminal `[DONE]` sentinel". -/
theorem c2_delta_after_done_counterexample :
    ¬ claimC2 [SSEEvent.done, SSEEvent.chunk ⟨some "x", none⟩] none := by
  unfold claimC2
  decide

/-- C1 (amended): the relay's `toolCalls` collection holds one entry per
fragment record, in stream order, each carrying only its own fragment text;
no concatenation across records for a shared identifier ever happens (and
fragments in the residual trailing record are dropped). In particular a
tool call whose arguments arrive in a single record (N = 1) is held as
exactly one entry with the complete payload. -/
theorem c1_tool_fragments_forwarded_per_record (lines : List SSEEvent)
    (tail : Option SSEEvent) :
    collectToolCalls (parseGroqStream lines tail true) = lineToolFrags lines := by
  induction lines with
  | nil =>
      show collectToolCalls ([] ++ processTail tail) = _
      rw [List.nil_append, collectToolCalls_tail]
      rfl
  | cons e es ih =>
      rw [parseGroqStream_cons, collectToolCalls_append, ih,
        collectToolCalls_processLine]
      have hcons : lineToolFrags (e :: es) =
          (match e with
            | .chunk c => c.tool_calls.getD []
            | _ => []) ++ lineToolFrags es := by
        simp [lineToolFrags]
      rw [hcons]

/-- C1 counterexample: when the argument text of tool call `call_a` arrives
split across two records (N = 2), the relay ends holding two separate
entries for that identifier — not one entry with the concatenated payload. -/
theorem c1_no_fragment_accumulation_counterexample :
    ¬ claimC1
      [SSEEvent.chunk ⟨none, some [⟨"call_a", "tavily_search", "fragA"⟩]⟩,
        SSEEvent.chunk ⟨none, some [⟨"call_a", "", "fragB"⟩]⟩]
      none "call_a" := by
  unfold claimC1
  decide

/-! ## `createChatStream` (src/lib/api/streaming.ts:349)

The generator (`onGenerate`) is summarised by the sequence of strings it
passes to `send` before it either returns normally or throws. Each `send`
enqueues a `data: {"content": ...}` event; normal completion enqueues the
`data: [DONE]` marker and closes; a thrown error enqueues a single
`data: {"error": ...}` event and closes. -/

/-- The observable behaviour of one run of the generator passed to
`createChatStream`: the `send` calls it made, then whether it returned
normally or threw (with the error message). -/
structure GenResult where
  sent : List String
  outcome : Except String Unit
deriving Repr

/-- One event of the caller-facing stream produced by `createChatStream`:
a `data: {"content": ...}` record, a `data: {"error": ...}` record, or the
`data: [DONE]` terminal marker. (`JSON.stringify` output always starts with
a brace, so a content record can never coincide with the marker.) -/
inductive StreamEvent where
  | data (s : String)
  | errorEvent (msg : String)
  | doneMarker
deriving DecidableEq, Repr

/-- Whether a stream event is the `data: {"error": ...}` record. -/
def StreamEvent.isError : StreamEvent → Bool
  | .errorEvent _ => true
  | _ => false

/-- `createChatStream` (src/lib/api/streaming.ts:349): the full event list
enqueued on the `ReadableStream` for one generator run. -/
def createChatStream (gen : GenResult) : List StreamEvent :=
  match gen.outcome with
  | .ok _ => gen.sent.map StreamEvent.data ++ [StreamEvent.doneMarker]
  | .error e => gen.sent.map StreamEvent.data ++ [StreamEvent.errorEvent e]

/-- C10: the caller-facing stream ends in exactly one of two mutually
exclusive ways. If the generator completes normally, the last event is the
`data: [DONE]` marker and no error event appears; if the generator throws,
the last event is the single error event carrying the error message and no
`[DONE]` marker is ever emitted on that stream. -/
theorem c10_stream_terminal_dichotomy (sent : List String) (msg : String) :
    (createChatStream ⟨sent, Except.ok ()⟩).getLast? =
        some StreamEvent.doneMarker ∧
      (∀ ev ∈ createChatStream ⟨sent, Except.ok ()⟩, ev.isError = false) ∧
      (createChatStream ⟨sent, Except.error msg⟩).getLast? =
        some (StreamEvent.errorEvent msg) ∧
      (createChatStream ⟨sent, Except.error msg⟩).countP
          (fun ev => ev.isError) = 1 ∧
      (∀ ev ∈ createChatStream ⟨sent, Except.error msg⟩,
        ev ≠ StreamEvent.doneMarker) := by
  refine ⟨?_, ?_, ?_, ?_, ?_⟩
  · rw [createChatStream]
    exact List.getLast?_concat _
  · intro ev hev
    rcases List.mem_append.mp hev with hm | hm
    · rcases List.mem_map.mp hm with ⟨s, _, rfl⟩
      rfl
    · rcases List.mem_singleton.mp hm with rfl
      rfl
  · rw [createChatStream]
    exact List.getLast?_concat _
  · rw [createChatStream, List.countP_append]
    have h1 : (sent.map StreamEvent.data).countP (fun ev => ev.isError) = 0 := by
      induction sent with
      | nil => rfl
      | cons s ss ih => simp [List.countP_cons, StreamEvent.isError, ih]
    rw [h1]
    rfl
  · intro ev hev
    rcases List.mem_append.mp hev with hm | hm
    · rcases List.mem_map.mp hm with ⟨s, _, rfl⟩
      intro h
      cases h
    · rcases List.mem_singleton.mp hm with rfl
      intro h
      cases h

/-! ## `retryWithBackoff` (src/lib/api/streaming.ts:377) -/

/-- The errors the retry helper distinguishes: a thrown `Response` (with
its numeric status and optional `retry-after` header text) or any other
thrown error. -/
inductive JsError where
  | response (status : Nat) (retryAfter : Option String)
  | wrapped (msg : String)
deriving DecidableEq, Repr

/-- The `error instanceof Response && response.status === 429` test: on a
429 response it yields the `retry-after` header, otherwise `none`
(the error is rethrown). -/
def retryable429 : JsError → Option (Option String)
  | .response 429 ra => some ra
  | _ => none

/-- `parseInt` on a header value, restricted to the all-digit case (a
non-numeric header gives `NaN`, modelled as `none`). -/
def jsParseInt (s : String) : Option Nat :=
  if s.data ≠ [] ∧ s.data.all Char.isDigit then
    some (s.data.foldl (fun n c => n * 10 + (c.toNat - 48)) 0)
  else none

/-- The sleep the helper performs before the next attempt:
`retryAfter ? parseInt(retryAfter) * 1000 : initialDelayMs * Math.pow(2, attempt)`.
(`parseInt` of a non-numeric header gives `NaN`, which `setTimeout` treats
as a zero delay; `getD 0` mirrors that.) -/
def backoffDelay (retryAfter : Option String) (initialDelayMs attempt : Nat) : Nat :=
  match retryAfter with
  | some s => (jsParseInt s).getD 0 * 1000
  | none => initialDelayMs * 2 ^ attempt

/-- The observable behaviour of one `retryWithBackoff` run: the sleeps
performed (in ms, in order), the number of invocations of the wrapped
operation, and the final outcome. -/
structure RetryTrace (A : Type) where
  delays : List Nat
  calls : Nat
  result : Except JsError A
deriving Repr

/-- The `for (let attempt = 0; attempt < maxAttempts; attempt++)` loop of
`retryWithBackoff`: a successful call returns; on the last attempt the
error is rethrown; a 429 response sleeps and retries; any other error is
rethrown at once. The statement after the loop throws
`Max retry attempts exceeded` (reachable only when `maxAttempts = 0`). -/
def retryLoop (fn : Nat -> Except JsError A) (maxAttempts initialDelayMs attempt : Nat) :
    RetryTrace A :=
  if _h : attempt < maxAttempts then
    match fn attempt with
    | .ok a => ⟨[], 1, .ok a⟩
    | .error e =>
      if attempt = maxAttempts - 1 then ⟨[], 1, .error e⟩
      else
        match retryable429 e with
        | some ra =>
            let d := backoffDelay ra initialDelayMs attempt
            let t := retryLoop fn maxAttempts initialDelayMs (attempt + 1)
            ⟨d :: t.delays, t.calls + 1, t.result⟩
        | none => ⟨[], 1, .error e⟩
  else ⟨[], 0, .error (.wrapped "Max retry attempts exceeded")⟩
termination_by maxAttempts - attempt
decreasing_by omega

/-- `retryWithBackoff` (src/lib/api/streaming.ts:377), entered at attempt 0.
The source's default arguments are `maxAttempts = 3`, `initialDelayMs = 1000`. -/
def retryWithBackoff (fn : Nat -> Except JsError A)
    (maxAttempts initialDelayMs : Nat) : RetryTrace A :=
  retryLoop fn maxAttempts initialDelayMs 0

lemma retryLoop_calls_le (fn : Nat -> Except JsError A)
    (maxAttempts initialDelayMs : Nat) :
    ∀ fuel attempt, maxAttempts - attempt ≤ fuel →
      (retryLoop fn maxAttempts initialDelayMs attempt).calls ≤
        maxAttempts - attempt := by
  intro fuel
  induction fuel with
  | zero =>
      intro attempt ha
      have hnot : ¬ attempt < maxAttempts := by omega
      rw [retryLoop]
      simp [hnot]
  | succ n ih =>
      intro attempt _
      rw [retryLoop]
      by_cases h : attempt < maxAttempts
      · simp only [dif_pos h]
        cases hf : fn attempt with
        | ok v => simp; omega
        | error e =>
            by_cases hl : attempt = maxAttempts - 1
            · simp [hl]; omega
            · simp only [if_neg hl]
              cases hr : retryable429 e with
              | none => simp; omega
              | some ra =>
                  simp only []
                  have := ih (attempt + 1) (by omega)
                  simp
                  omega
      · simp [h]

lemma retryLoop_step_429 (fn : Nat -> Except JsError A)
    (maxAttempts initialDelayMs attempt : Nat) (ra : Option String)
    (hlt : attempt < maxAttempts) (hne : attempt ≠ maxAttempts - 1)
    (hf : fn attempt = Except.error (JsError.response 429 ra)) :
    retryLoop fn maxAttempts initialDelayMs attempt =
      ⟨backoffDelay ra initialDelayMs attempt ::
          (retryLoop fn maxAttempts initialDelayMs (attempt + 1)).delays,
        (retryLoop fn maxAttempts initialDelayMs (attempt + 1)).calls + 1,
        (retryLoop fn maxAttempts initialDelayMs (attempt + 1)).result⟩ := by
  rw [retryLoop]
  simp [hlt, hne, hf, retryable429]

lemma retryLoop_last_attempt (fn : Nat -> Except JsError A)
    (maxAttempts initialDelayMs attempt : Nat) (e : JsError)
    (hlt : attempt < maxAttempts) (heq : attempt = maxAttempts - 1)
    (hf : fn attempt = Except.error e) :
    retryLoop fn maxAttempts initialDelayMs attempt = ⟨[], 1, Except.error e⟩ := by
  subst heq
  rw [retryLoop]
  have hpos : 0 < maxAttempts := by omega
  simp [hlt, hpos, hf]

/-- C7: when the wrapped operation throws a 429 response with a
`retry-after` header of `"2"`, `retryWithBackoff` (at its default
`maxAttempts = 3`, `initialDelayMs = 1000`) sleeps exactly
`parseInt("2") * 1000 = 2000` ms before the next attempt (so at least
2000 ms); it invokes the wrapped operation at most 3 times; and when the
final attempt fails too, it raises that final error. -/
theorem c7_retry_backoff_behaviour (fn : Nat -> Except JsError A)
    (h0 : fn 0 = Except.error (JsError.response 429 (some "2"))) :
    (retryWithBackoff fn 3 1000).delays.head? = some 2000 ∧
      (retryWithBackoff fn 3 1000).calls ≤ 3 ∧
      (∀ ra1 e2, fn 1 = Except.error (JsError.response 429 ra1) →
        fn 2 = Except.error e2 →
        (retryWithBackoff fn 3 1000).result = Except.error e2) := by
  refine ⟨?_, ?_, ?_⟩
  · rw [retryWithBackoff,
      retryLoop_step_429 fn 3 1000 0 (some "2") (by omega) (by omega) h0]
    have hd : backoffDelay (some "2") 1000 0 = 2000 := by decide
    rw [List.head?_cons, hd]
  · have h := retryLoop_calls_le fn 3 1000 3 0 (by omega)
    simpa [retryWithBackoff] using h
  · intro ra1 e2 h1 h2
    rw [retryWithBackoff,
      retryLoop_step_429 fn 3 1000 0 (some "2") (by omega) (by omega) h0]
    show (retryLoop fn 3 1000 1).result = Except.error e2
    rw [retryLoop_step_429 fn 3 1000 1 ra1 (by omega) (by omega) h1]
    show (retryLoop fn 3 1000 2).result = Except.error e2
    rw [retryLoop_last_attempt fn 3 1000 2 e2 (by omega) (by omega) h2]

/-- Operation that always throws a 429 response with `retry-after: 2`,
used to witness `c7_retry_backoff_behaviour`. -/
def alwaysRateLimited : Nat -> Except JsError Unit :=
  fun _ => Except.error (JsError.response 429 (some "2"))

/-- Concrete instantiation of C7 at an operation that is rate-limited on
every attempt. -/
theorem c7_retry_backoff_behaviour_witness :
    (retryWithBackoff alwaysRateLimited 3 1000).delays.head? = some 2000 ∧
      (retryWithBackoff alwaysRateLimited 3 1000).calls ≤ 3 ∧
      (retryWithBackoff alwaysRateLimited 3 1000).result =
        Except.error (JsError.response 429 (some "2")) := by
  obtain ⟨h1, h2, h3⟩ := c7_retry_backoff_behaviour alwaysRateLimited rfl
  exact ⟨h1, h2, h3 (some "2") (JsError.response 429 (some "2")) rfl rfl⟩

/-! ## Message-history assembly (plain chat route and chat-rag route)

The plain chat route is the first document of `src/unnamed/part_003`
(`POST`, lines 62-211); the RAG-enabled route is
`src/app/api/chat-rag/route.ts`. -/

/-- A chat message as the routes handle it: role, content (kept opaque —
a JSON string or content-block array), the `tool_calls` attached to an
assistant placeholder, and an optional `tool_call_id`. -/
structure GroqMessage where
  role : String
  content : String
  tool_calls : List ToolCallFragment
  tool_call_id : Option String
deriving DecidableEq, Repr

/-- `formatMessagesForGroq` (src/lib/api/groqClient.ts:108): maps each
message to `{ role, content, ...(msg.tool_call_id && { tool_call_id }) }` —
a falsy (absent or empty) `tool_call_id` is dropped, and `tool_calls` is
not copied. Order is preserved (it is a `map`). -/
def formatMessagesForGroq (msgs : List GroqMessage) : List GroqMessage :=
  msgs.map fun m =>
    ⟨m.role, m.content, [],
      match m.tool_call_id with
      | some s => if s = "" then none else some s
      | none => none⟩

/-- The plain chat route's request assembly (src/unnamed/part_003, POST):
`messagesWithSystem = [{role:'system',content:PROMPT}, ...messages]`, then
`formatMessagesForGroq`. The prompt text is irrelevant to the claims and is
passed as a parameter. -/
def plainChatMessages (systemPrompt : String) (messages : List GroqMessage) :
    List GroqMessage :=
  formatMessagesForGroq (⟨"system", systemPrompt, [], none⟩ :: messages)

/-- The chat-rag route's request assembly (src/app/api/chat-rag/route.ts,
POST, lines 143-187). The route evaluates
`messages.reverse().find((m) => m.role === 'user')`:
`Array.prototype.reverse` reverses the array IN PLACE, so the later spread
`[{role:'system',...}, ...messages]` reads the reversed array. `none`
models the 400 "No user message found" early return. -/
def chatRagMessages (systemPrompt ragContext : String)
    (messages : List GroqMessage) : Option (List GroqMessage) :=
  let reversed := messages.reverse
  match reversed.find? (fun m => m.role == "user") with
  | none => none
  | some _ =>
      some (formatMessagesForGroq
        (⟨"system", systemPrompt ++ ragContext, [], none⟩ :: reversed))

/-- A three-message history `[user "A", assistant "B", user "C"]` on which
the two routes assemble different provider requests. -/
def historyABC : List GroqMessage :=
  [⟨"user", "A", [], none⟩, ⟨"assistant", "B", [], none⟩,
    ⟨"user", "C", [], none⟩]

/-- C3: on the history `[user "A", assistant "B", user "C"]` the plain chat
route submits the system prompt followed by the caller's messages in their
original order, but the chat-rag route submits the caller's messages
REVERSED (`messages.reverse()` mutates the array in place before the
spread), diverging from the claim and from the plain route. -/
theorem c3_chat_rag_reverses_history (p : String) :
    plainChatMessages p historyABC =
        ⟨"system", p, [], none⟩ :: historyABC ∧
      chatRagMessages p "" historyABC =
        some (⟨"system", p, [], none⟩ :: historyABC.reverse) ∧
      ⟨"system", p, [], none⟩ :: historyABC.reverse ≠
        (⟨"system", p, [], none⟩ :: historyABC : List GroqMessage) := by
  refine ⟨?_, ?_, ?_⟩
  · simp [plainChatMessages, formatMessagesForGroq, historyABC]
  · simp [chatRagMessages, formatMessagesForGroq, historyABC]
  · intro h
    simp [historyABC] at h

/-! ## Tool-execution loop of the chat-rag route (C6)

Models the generator passed to `createChatStream` in
`src/app/api/chat-rag/route.ts` (POST, lines 195-293): parse the primary
provider stream, then for each collected tool call named `tavily_search`
parse its JSON arguments, call the search collaborator, and stream the
follow-up answer — any failure inside the per-call `try` block degrades to
the inline warning text and the loop continues. -/

/-- The fields of the parsed tool-call argument payload the route reads:
`args.query` and `args.search_depth`. -/
structure SearchArgs where
  query : String
  search_depth : Option String
deriving DecidableEq, Repr

/-- The body the route posts to `/api/search`:
`{ query: searchQuery, searchDepth: args.search_depth || 'basic' }`
(a falsy depth — absent or empty — falls back to `'basic'`). -/
structure SearchBody where
  query : String
  searchDepth : String
deriving DecidableEq, Repr

/-- Construction of the search request body from the parsed arguments. -/
def searchRequestBody (args : SearchArgs) : SearchBody :=
  ⟨args.query,
    match args.search_depth with
    | some s => if s = "" then "basic" else s
    | none => "basic"⟩

/-- The parsed JSON body of a successful search response, as the route
reads it: `searchResults.formatted || JSON.stringify(searchResults.results)`. -/
structure SearchResults where
  formatted : Option String
  results : String
deriving DecidableEq, Repr

/-- The collaborators of one chat-rag turn, as black boxes:
* `parseArgs`: `JSON.parse(toolCall.arguments)` projected to the fields the
  route reads (`none` models a thrown parse error on malformed JSON);
* `search`: the `fetch` of `/api/search` (`Except.error` models either a
  thrown network error or a non-2xx response, which the route turns into
  `throw new Error('Search failed')`);
* `followupStream`: the follow-up `streamGroqChat` + `parseGroqStream`
  round-trip driven with the given messages (`Except.error` models a throw,
  `Except.ok` the list of deltas it sends). -/
structure ToolEnv where
  parseArgs : String → Option SearchArgs
  search : SearchBody → Except String SearchResults
  followupStream : List GroqMessage → Except String (List String)

/-- The inline degradation warning the route `send`s when the per-call
`try` block fails. -/
def searchFailedWarning : String :=
  "\n\n❌ Failed to execute search. Continuing without search results...\n\n"

/-- The banner the route `send`s before executing collected tool calls. -/
def searchingBanner : String := "\n\n🔍 Searching the web...\n\n"

/-- The follow-up conversation the route builds: the formatted history,
an assistant placeholder carrying the tool-call record, and a tool-result
message back-referencing the tool-call id. -/
def followUpMessages (formatted : List GroqMessage) (tc : ToolCallFragment)
    (res : SearchResults) : List GroqMessage :=
  formatted ++
    [⟨"assistant", "", [⟨tc.id, tc.name, tc.arguments⟩], none⟩,
      ⟨"tool",
        (match res.formatted with
          | some f => if f = "" then res.results else f
          | none => res.results), [], some tc.id⟩]

/-- One iteration of the route's tool-call loop: the `send`s it performs.
Non-`tavily_search` calls are skipped silently; inside the `try` block a
JSON-parse failure, a failed search, or a throwing follow-up stream each
degrade to the single inline warning. -/
def execToolCall (env : ToolEnv) (formatted : List GroqMessage)
    (tc : ToolCallFragment) : List String :=
  if tc.name = "tavily_search" then
    match env.parseArgs tc.arguments with
    | none => [searchFailedWarning]
    | some args =>
      match env.search (searchRequestBody args) with
      | .error _ => [searchFailedWarning]
      | .ok res =>
        match env.followupStream (followUpMessages formatted tc res) with
        | .error _ => [searchFailedWarning]
        | .ok deltas => deltas
  else []

/-- The generator the chat-rag route passes to `createChatStream`.
`primary` is the outcome of `streamGroqChat` + `parseGroqStream` on the
primary request: `Except.error` models a throw there (rethrown by the
generator's catch), `Except.ok` the callback trace. When tool calls were
collected, the route sends the searching banner and runs the loop. -/
def chatRagGenerator (primary : Except String (List Emit)) (env : ToolEnv)
    (formatted : List GroqMessage) : GenResult :=
  match primary with
  | .error msg => ⟨[], .error msg⟩
  | .ok emits =>
    let tcs := collectToolCalls emits
    if tcs.isEmpty then ⟨textDeltas emits, .ok ()⟩
    else
      ⟨textDeltas emits ++
          searchingBanner :: (tcs.map (execToolCall env formatted)).flatten,
        .ok ()⟩

/-- C6: in a turn where the LLM emitted a `tavily_search` tool call and the
search collaborator fails (non-2xx / thrown fetch) or the tool's argument
payload fails to parse as JSON, the caller-facing stream contains the
inline degradation warning, the generator still completes normally (the
turn is not aborted), and the stream still ends with the `data: [DONE]`
terminal marker. -/
theorem c6_search_failure_degrades_inline (emits : List Emit) (env : ToolEnv)
    (formatted : List GroqMessage) (tc : ToolCallFragment)
    (hmem : tc ∈ collectToolCalls emits)
    (hname : tc.name = "tavily_search")
    (hfail : env.parseArgs tc.arguments = none ∨
      ∃ args e, env.parseArgs tc.arguments = some args ∧
        env.search (searchRequestBody args) = Except.error e) :
    StreamEvent.data searchFailedWarning ∈
        createChatStream (chatRagGenerator (Except.ok emits) env formatted) ∧
      (chatRagGenerator (Except.ok emits) env formatted).outcome =
        Except.ok () ∧
      (createChatStream
          (chatRagGenerator (Except.ok emits) env formatted)).getLast? =
        some StreamEvent.doneMarker := by
  have hexec : execToolCall env formatted tc = [searchFailedWarning] := by
    rcases hfail with hp | ⟨args, e, hargs, hs⟩
    · rw [execToolCall, if_pos hname, hp]
    · rw [execToolCall, if_pos hname, hargs]
      show (match env.search (searchRequestBody args) with
        | .error _ => [searchFailedWarning]
        | .ok res =>
          match env.followupStream (followUpMessages formatted tc res) with
          | .error _ => [searchFailedWarning]
          | .ok deltas => deltas) = [searchFailedWarning]
      rw [hs]
  have hne : (collectToolCalls emits).isEmpty = false :=
    List.isEmpty_eq_false_iff_exists_mem.mpr ⟨tc, hmem⟩
  have hgen : chatRagGenerator (Except.ok emits) env formatted =
      ⟨textDeltas emits ++
          searchingBanner ::
            ((collectToolCalls emits).map (execToolCall env formatted)).flatten,
        .ok ()⟩ := by
    rw [chatRagGenerator]
    simp only [hne, Bool.false_eq_true, if_false]
  have hsent : searchFailedWarning ∈
      textDeltas emits ++
        searchingBanner ::
          ((collectToolCalls emits).map (execToolCall env formatted)).flatten := by
    refine List.mem_append_right _ (List.mem_cons_of_mem _ ?_)
    refine List.mem_flatten.mpr ⟨[searchFailedWarning], ?_, List.mem_singleton_self _⟩
    rw [← hexec]
    exact List.mem_map_of_mem _ hmem
  refine ⟨?_, ?_, ?_⟩
  · rw [hgen, createChatStream]
    exact List.mem_append_left _ (List.mem_map_of_mem _ hsent)
  · rw [hgen]
  · rw [hgen, createChatStream]
    exact List.getLast?_concat _

/-! ## Session & message store (src/lib/db/schema, src/app/api/sessions/...)

Relational state as lists of rows. Timestamps are abstract `Nat` instants;
`now` is passed where the route calls `new Date()`. Foreign-key actions
come from the schema (src/lib/db/client.ts second document):
`messages.session_id` and `attachments.message_id` both carry
`onDelete: 'cascade'`, so a SQL `DELETE` of message rows removes their
attachment rows. -/

/-- A row of the `sessions` table. -/
structure Session where
  id : String
  title : String
  userId : Option String
  createdAt : Nat
  lastUpdated : Nat
  modelUsed : String
deriving DecidableEq, Repr

/-- A row of the `messages` table (content kept opaque). -/
structure Message where
  id : String
  sessionId : String
  role : String
  content : String
  status : String
  createdAt : Nat
  tokensUsed : Option Nat
deriving DecidableEq, Repr

/-- A row of the `attachments` table. -/
structure Attachment where
  id : String
  messageId : String
  fileType : String
  fileName : String
deriving DecidableEq, Repr

/-- The database state the session routes touch. -/
structure Db where
  sessions : List Session
  messages : List Message
  attachments : List Attachment
deriving DecidableEq, Repr

/-- Stable insertion into a sorted list (used to model SQL `orderBy`). -/
def insertBy (le : A → A → Bool) (a : A) : List A → List A
  | [] => [a]
  | b :: bs => if le a b then a :: b :: bs else b :: insertBy le a bs

/-- Stable insertion sort (used to model SQL `orderBy`; the claims below
only depend on membership). -/
def sortBy (le : A → A → Bool) : List A → List A
  | [] => []
  | a :: as => insertBy le a (sortBy le as)

lemma mem_insertBy (le : A → A → Bool) (a x : A) (l : List A) :
    x ∈ insertBy le a l ↔ x = a ∨ x ∈ l := by
  induction l with
  | nil => simp [insertBy]
  | cons b bs ih =>
      by_cases h : le a b = true
      · simp [insertBy, h]
      · simp [insertBy, h, ih]
        tauto

lemma mem_sortBy (le : A → A → Bool) (x : A) (l : List A) :
    x ∈ sortBy le l ↔ x ∈ l := by
  induction l with
  | nil => simp [sortBy]
  | cons a as ih => simp [sortBy, mem_insertBy, ih]

/-- `GET /api/sessions` (src/app/api/sessions/route.ts:11): an
unauthenticated caller gets `[]`; otherwise the `sessions` rows with
`userId = session.user.id`, ordered by `lastUpdated` descending. -/
def sessionsGET (auth : Option String) (db : Db) : List Session :=
  match auth with
  | none => []
  | some uid =>
      sortBy (fun a b => decide (b.lastUpdated ≤ a.lastUpdated))
        (db.sessions.filter fun s => s.userId == some uid)

/-- The legacy session-listing `GET` bundled as the second document of
`src/app/api/sessions/[id]/transfer/route.ts` (lines 100-121): no
authentication and no owner filter — every `sessions` row, ordered by
`createdAt` descending. -/
def legacySessionsGET (db : Db) : List Session :=
  sortBy (fun a b => decide (b.createdAt ≤ a.createdAt)) db.sessions

/-- Claim C4 as stated, for one listing call: the returned list contains
exactly the sessions whose owner equals the authenticated caller's
identity, and an unauthenticated caller receives the empty list. -/
def claimC4 (auth : Option String) (db : Db) (result : List Session) : Prop :=
  (∀ s ∈ result, s ∈ db.sessions ∧ auth ≠ none ∧ s.userId = auth) ∧
    (∀ s ∈ db.sessions, auth ≠ none → s.userId = auth → s ∈ result)

/-- A session owned by user `u1`, used to exhibit the legacy listing's
missing owner filter. -/
def sessionOwnedByU1 : Session := ⟨"s1", "t", some "u1", 5, 7, "m"⟩

/-- C4 counterexample: the legacy session-listing route returns the
session owned by `u1` to an unauthenticated (anonymous) caller, instead of
the empty list the claim requires of every session-listing call. -/
theorem c4_legacy_listing_counterexample :
    ¬ claimC4 none ⟨[sessionOwnedByU1], [], []⟩
        (legacySessionsGET ⟨[sessionOwnedByU1], [], []⟩) := by
  intro h
  exact ((h.1 sessionOwnedByU1 (by decide)).2.1) rfl

/-- C4 (amended): the authenticated sessions route satisfies the claim —
its result contains exactly the caller's sessions, and an anonymous caller
receives the empty list; the legacy listing bundled with the transfer
route, by contrast, returns every session to any caller
(`c4_legacy_listing_counterexample`). -/
theorem c4_sessions_listing_filtered_by_owner (auth : Option String) (db : Db) :
    claimC4 auth db (sessionsGET auth db) := by
  constructor
  · intro s hs
    match auth with
    | none => simp [sessionsGET] at hs
    | some uid =>
        rw [sessionsGET, mem_sortBy, List.mem_filter] at hs
        refine ⟨hs.1, by simp, ?_⟩
        simpa using hs.2
  · intro s hs hne hid
    match auth with
    | none => exact absurd rfl hne
    | some uid =>
        rw [sessionsGET, mem_sortBy, List.mem_filter]
        exact ⟨hs, by simpa using hid⟩

/-- `POST /api/sessions/[id]/transfer`
(src/app/api/sessions/[id]/transfer/route.ts:10): 401 without an
authenticated caller; 404 when the session does not exist; 400 when it
already has an owner (`userId !== null`); otherwise sets `userId` to the
caller and bumps `lastUpdated`. -/
def transferPOST (auth : Option String) (sid : String) (now : Nat)
    (db : Db) : Nat × Db :=
  match auth with
  | none => (401, db)
  | some uid =>
    match db.sessions.find? (fun s => s.id == sid) with
    | none => (404, db)
    | some s =>
      match s.userId with
      | some _ => (400, db)
      | none =>
          (200,
            { db with
              sessions := db.sessions.map fun t =>
                if t.id == sid then
                  { t with userId := some uid, lastUpdated := now }
                else t })

lemma find?_map_update_session (l : List Session) (sid : String)
    (f : Session → Session) (hf : ∀ t, (f t).id = t.id) :
    ((l.map fun t => if t.id == sid then f t else t).find?
        (fun t => t.id == sid)) =
      (l.find? (fun t => t.id == sid)).map f := by
  induction l with
  | nil => rfl
  | cons t ts ih =>
      rw [List.map_cons]
      by_cases h : (t.id == sid) = true
      · rw [if_pos h]
        have hft : ((f t).id == sid) = true := by rw [hf t]; exact h
        simp [hft, h]
      · rw [if_neg h]
        have hb : (t.id == sid) = false := by simpa using h
        rw [List.find?_cons, List.find?_cons, hb]
        exact ih

/-- C5: transferring a session whose owner is `null`, requested by an
authenticated caller, succeeds (HTTP 200) and sets the session's owner to
that caller; transferring a session whose owner is already set is rejected
with a client error (HTTP 400, `Session already has an owner`) and the
database — hence the owner — is left unchanged. -/
theorem c5_transfer_once (uid : String) (sid : String) (now : Nat)
    (db : Db) (s : Session)
    (hfind : db.sessions.find? (fun t => t.id == sid) = some s) :
    (s.userId = none →
      (transferPOST (some uid) sid now db).1 = 200 ∧
        ((transferPOST (some uid) sid now db).2.sessions.find?
            (fun t => t.id == sid)).map Session.userId = some (some uid)) ∧
      (∀ v, s.userId = some v →
        transferPOST (some uid) sid now db = (400, db)) := by
  constructor
  · intro hnone
    constructor
    · simp only [transferPOST, hfind, hnone]
    · simp only [transferPOST, hfind, hnone]
      rw [find?_map_update_session db.sessions sid
        (fun t => { t with userId := some uid, lastUpdated := now })
        (fun t => rfl), hfind]
      rfl
  · intro v hv
    simp only [transferPOST, hfind, hv]

/-- A database holding one anonymous session, used to witness C5. -/
def anonSessionDb : Db := ⟨[⟨"s1", "t", none, 1, 1, "m"⟩], [], []⟩

/-- A database holding one session already owned by `u1`, used to witness
the conflict half of C5. -/
def ownedSessionDb : Db := ⟨[⟨"s1", "t", some "u1", 1, 1, "m"⟩], [], []⟩

/-- Concrete instantiation of C5: transferring the anonymous session `s1`
to `u9` succeeds and sets its owner to `u9`; transferring the already-owned
session is rejected with 400 and the state is unchanged. -/
theorem c5_transfer_once_witness :
    ((transferPOST (some "u9") "s1" 2 anonSessionDb).1 = 200 ∧
      ((transferPOST (some "u9") "s1" 2 anonSessionDb).2.sessions.find?
          (fun t => t.id == "s1")).map Session.userId = some (some "u9")) ∧
      transferPOST (some "u9") "s1" 2 ownedSessionDb = (400, ownedSessionDb) :=
  ⟨(c5_transfer_once "u9" "s1" 2 anonSessionDb ⟨"s1", "t", none, 1, 1, "m"⟩
      rfl).1 rfl,
    (c5_transfer_once "u9" "s1" 2 ownedSessionDb
      ⟨"s1", "t", some "u1", 1, 1, "m"⟩ rfl).2 "u1" rfl⟩

/-- Environment whose `JSON.parse` always fails, used to witness C6. -/
def failingToolEnv : ToolEnv :=
  ⟨fun _ => none, fun _ => Except.error "Search failed", fun _ => Except.ok []⟩

/-- A primary-stream trace carrying exactly one `tavily_search` tool call
with a malformed argument payload, used to witness C6. -/
def failingEmits : List Emit :=
  [Emit.tool ⟨"call_1", "tavily_search", "notjson"⟩]

/-- Concrete instantiation of C6: with a malformed tool-call argument
payload, the stream contains the inline warning, the turn completes
normally, and the stream ends with the `[DONE]` marker. -/
theorem c6_search_failure_degrades_inline_witness :
    StreamEvent.data searchFailedWarning ∈
        createChatStream
          (chatRagGenerator (Except.ok failingEmits) failingToolEnv []) ∧
      (chatRagGenerator (Except.ok failingEmits) failingToolEnv []).outcome =
        Except.ok () ∧
      (createChatStream
          (chatRagGenerator (Except.ok failingEmits) failingToolEnv [])).getLast? =
        some StreamEvent.doneMarker :=
  c6_search_failure_degrades_inline failingEmits failingToolEnv []
    ⟨"call_1", "tavily_search", "notjson"⟩
    (by simp [collectToolCalls, failingEmits]) rfl (Or.inl rfl)

/-- `authSession?.user?.id` mismatch test the session routes repeat:
`chatSession.userId && chatSession.userId !== authSession?.user?.id` —
an owned session is forbidden to any caller other than its owner (including
an anonymous caller); an ownerless session is never forbidden. -/
def forbiddenFor (s : Session) (auth : Option String) : Bool :=
  match s.userId with
  | some u => !(auth == some u)
  | none => false

/-- The cascade the schema attaches to
`db.delete(messages).where(eq(messages.sessionId, sessionId))`: the message
rows of the session are removed, and the `onDelete: 'cascade'` action on
`attachments.message_id` removes the attachment rows that referenced them. -/
def deleteMessagesCascade (sid : String) (db : Db) : Db :=
  let deletedIds := (db.messages.filter fun m => m.sessionId == sid).map
    Message.id
  { db with
    messages := db.messages.filter fun m => !(m.sessionId == sid),
    attachments := db.attachments.filter fun a =>
      !(deletedIds.contains a.messageId) }

/-- `DELETE /api/sessions/[id]` (src/app/api/sessions/[id]/route.ts,
second document, lines 255-296): 404 when the session does not exist, 403
on an ownership mismatch, otherwise delete the session's messages (with
their attachments, by the schema cascade) and the session row. -/
def sessionDELETE (auth : Option String) (sid : String) (db : Db) :
    Nat × Db :=
  match db.sessions.find? (fun s => s.id == sid) with
  | none => (404, db)
  | some s =>
    if forbiddenFor s auth then (403, db)
    else
      let db1 := deleteMessagesCascade sid db
      (200, { db1 with sessions := db1.sessions.filter fun t => !(t.id == sid) })

/-- `GET /api/sessions/[id]/messages` (src/unnamed/part_006, lines 11-61):
404 when the session row does not exist, 403 on an ownership mismatch,
otherwise the session's messages ordered by `createdAt` ascending. -/
def messagesGET (auth : Option String) (sid : String) (db : Db) :
    Nat × List Message :=
  match db.sessions.find? (fun s => s.id == sid) with
  | none => (404, [])
  | some s =>
    if forbiddenFor s auth then (403, [])
    else
      (200, sortBy (fun a b => decide (a.createdAt ≤ b.createdAt))
        (db.messages.filter fun m => m.sessionId == sid))

/-- The legacy messages `GET` (src/unnamed/part_005, lines 9-35): no
session-existence check and no ownership check — it just filters message
rows, returning 200 even when the session does not exist. -/
def legacyMessagesGET (sid : String) (db : Db) : Nat × List Message :=
  (200, db.messages.filter fun m => m.sessionId == sid)

/-- A database with one anonymous session `s1` holding one message with one
attachment, used for the C8 counterexample and witness. -/
def dbWithS1 : Db :=
  ⟨[⟨"s1", "t", none, 1, 1, "m"⟩],
    [⟨"m1", "s1", "user", "hi", "sent", 1, none⟩],
    [⟨"a1", "m1", "image", "f.png"⟩]⟩

/-- C8 counterexample: after `s1` is deleted (status 200), the legacy
messages route answers the query for `s1`'s messages with HTTP 200 and the
empty list — not the not-found result the claim requires of querying the
messages of a deleted session. -/
theorem c8_legacy_messages_empty_counterexample :
    (sessionDELETE none "s1" dbWithS1).1 = 200 ∧
      legacyMessagesGET "s1" (sessionDELETE none "s1" dbWithS1).2 =
        (200, []) := by
  decide

lemma find?_filter_not (p : A → Bool) (l : List A) :
    (l.filter fun x => !(p x)).find? p = none := by
  induction l with
  | nil => rfl
  | cons a as ih =>
      by_cases h : p a = true
      · simp [List.filter_cons, h, ih]
      · have hb : p a = false := by simpa using h
        simp [List.filter_cons, hb, ih]

/-- C8 (amended): an authorized delete of a session removes all of that
session's messages and (by the schema's FK cascade) their attachments, and
afterwards the owner-checked messages route answers the query for the
deleted session with a 404 not-found and no rows; the legacy messages
route variant, by contrast, answers 200 with the empty list
(`c8_legacy_messages_empty_counterexample`). -/
theorem c8_delete_cascades_and_messages_not_found (auth auth2 : Option String)
    (sid : String) (db : Db)
    (h200 : (sessionDELETE auth sid db).1 = 200) :
    (∀ m ∈ (sessionDELETE auth sid db).2.messages, m.sessionId ≠ sid) ∧
      (∀ a ∈ (sessionDELETE auth sid db).2.attachments,
        a.messageId ∉
          ((db.messages.filter fun m => m.sessionId == sid).map Message.id)) ∧
      messagesGET auth2 sid (sessionDELETE auth sid db).2 = (404, []) := by
  cases hf : db.sessions.find? (fun s => s.id == sid) with
  | none =>
      rw [sessionDELETE, hf] at h200
      exact absurd (show (404 : Nat) = 200 from h200) (by decide)
  | some s =>
      by_cases hforb : forbiddenFor s auth = true
      · have h403 : (sessionDELETE auth sid db).1 = 403 := by
          rw [sessionDELETE, hf]
          show (if forbiddenFor s auth = true then ((403 : Nat), db)
            else (200,
              { deleteMessagesCascade sid db with
                sessions := (deleteMessagesCascade sid db).sessions.filter
                  fun t => !(t.id == sid) })).1 = 403
          rw [if_pos hforb]
        rw [h403] at h200
        exact absurd h200 (by decide)
      · have hres : sessionDELETE auth sid db =
            (200,
              { deleteMessagesCascade sid db with
                sessions := (deleteMessagesCascade sid db).sessions.filter
                  fun t => !(t.id == sid) }) := by
          rw [sessionDELETE, hf]
          exact if_neg hforb
        refine ⟨?_, ?_, ?_⟩
        · intro m hm
          rw [hres] at hm
          have hm2 : m ∈ db.messages.filter fun m => !(m.sessionId == sid) := hm
          have := (List.mem_filter.mp hm2).2
          simpa using this
        · intro a ha
          rw [hres] at ha
          have ha2 : a ∈ db.attachments.filter fun a =>
              !(((db.messages.filter fun m => m.sessionId == sid).map
                Message.id).contains a.messageId) := ha
          have hcont := (List.mem_filter.mp ha2).2
          intro hmem
          have htrue : ((db.messages.filter fun m => m.sessionId == sid).map
              Message.id).contains a.messageId = true := by
            simp [List.contains, hmem]
          rw [htrue] at hcont
          exact absurd hcont (by decide)
        · rw [hres]
          show messagesGET auth2 sid _ = (404, [])
          rw [messagesGET]
          have : ((deleteMessagesCascade sid db).sessions.filter
              fun t => !(t.id == sid)).find? (fun s => s.id == sid) = none :=
            find?_filter_not _ _
          rw [this]

/-- Concrete instantiation of C8 (amended) on `dbWithS1`: the delete
succeeds, no message or attachment of `s1` survives, and the owner-checked
messages route then returns 404. -/
theorem c8_delete_cascades_witness :
    (∀ m ∈ (sessionDELETE none "s1" dbWithS1).2.messages,
        m.sessionId ≠ "s1") ∧
      (∀ a ∈ (sessionDELETE none "s1" dbWithS1).2.attachments,
        a.messageId ∉
          ((dbWithS1.messages.filter fun m => m.sessionId == "s1").map
            Message.id)) ∧
      messagesGET none "s1" (sessionDELETE none "s1" dbWithS1).2 =
        (404, []) :=
  c8_delete_cascades_and_messages_not_found none none "s1" dbWithS1 (by decide)

/-! ## RAG passthrough proxy (src/app/api/rag/chat/route.ts, POST) -/

/-- The backend body fields the proxy forwards verbatim. -/
structure RagBody where
  response : String
  status : String
deriving DecidableEq, Repr

/-- The outcome of the proxy's `fetch` to the RAG backend:
* `resp status body`: a response arrived; `body` is the outcome of
  `response.json()` (`Except.error` models it throwing — the proxy only
  reads it on a 2xx status);
* `threw msg`: the `fetch` itself threw (network failure, timeout). -/
inductive RagFetch where
  | resp (status : Nat) (body : Except String RagBody)
  | threw (msg : String)
deriving Repr

/-- The JSON body the proxy returns:
* `errorRequired`: the 400 `Text field is required` body;
* `unavailable code`: the degraded body for a non-2xx backend response
  (`status: 'error'`, `code` echoing the backend status);
* `pass b`: the backend body forwarded on success;
* `connectError msg`: the degraded body of the outer catch
  (`status: 'error'`, `fallback: true`). -/
inductive RagOut where
  | errorRequired
  | unavailable (code : Nat)
  | pass (b : RagBody)
  | connectError (msg : String)
deriving DecidableEq, Repr

/-- The `status` field of the returned JSON body, as a caller inspects it. -/
def ragOutStatusField : RagOut → Option String
  | .errorRequired => none
  | .unavailable _ => some "error"
  | .pass b => some b.status
  | .connectError _ => some "error"

/-- `POST /api/rag/chat` (src/app/api/rag/chat/route.ts:33): a falsy `text`
is rejected with 400 before any forwarding; a non-2xx backend response
(`!response.ok`) yields HTTP 200 with the degraded `status: 'error'` body;
a throw anywhere (fetch or `response.json()`) is caught and yields HTTP 200
with the `status: 'error', fallback: true` body; a 2xx backend response is
forwarded with the default HTTP 200. -/
def ragChatPOST (text : String) (f : RagFetch) : Nat × RagOut :=
  if text = "" then (400, .errorRequired)
  else
    match f with
    | .threw m => (200, .connectError m)
    | .resp s body =>
      if 200 ≤ s ∧ s < 300 then
        match body with
        | .ok b => (200, .pass b)
        | .error m => (200, .connectError m)
      else (200, .unavailable s)

/-- C9: for every RAG passthrough request with a non-empty `text` whose
forwarding fails — the backend answers non-2xx, or the network call (or
body read) throws — the endpoint responds with HTTP status 200 and a JSON
body whose `status` field is `"error"`; the backend's failure status code
is never propagated as the HTTP status. -/
theorem c9_rag_proxy_failure_returns_200 (text : String) (ht : text ≠ "") :
    (∀ s body, ¬(200 ≤ s ∧ s < 300) →
      ragChatPOST text (.resp s body) = (200, .unavailable s) ∧
        ragOutStatusField (ragChatPOST text (.resp s body)).2 =
          some "error") ∧
      (∀ m, ragChatPOST text (.threw m) = (200, .connectError m) ∧
        ragOutStatusField (ragChatPOST text (.threw m)).2 = some "error") := by
  constructor
  · intro s body hs
    simp only [ragChatPOST, if_neg ht, if_neg hs]
    exact ⟨trivial, rfl⟩
  · intro m
    simp only [ragChatPOST, if_neg ht]
    exact ⟨trivial, rfl⟩

/-- Concrete instantiation of C9: text `"hi"`, backend answering 503 and a
thrown fetch both yield HTTP 200 with a `status: 'error'` body. -/
theorem c9_rag_proxy_failure_returns_200_witness :
    (ragChatPOST "hi" (.resp 503 (Except.error "boom")) =
        (200, .unavailable 503) ∧
      ragOutStatusField (ragChatPOST "hi"
          (.resp 503 (Except.error "boom"))).2 = some "error") ∧
      (ragChatPOST "hi" (.threw "ECONNREFUSED") =
          (200, .connectError "ECONNREFUSED") ∧
        ragOutStatusField (ragChatPOST "hi" (.threw "ECONNREFUSED")).2 =
          some "error") :=
  ⟨(c9_rag_proxy_failure_returns_200 "hi" (by decide)).1 503
      (Except.error "boom") (by omega),
    (c9_rag_proxy_failure_returns_200 "hi" (by decide)).2 "ECONNREFUSED"⟩

end HierenAI
